import Mathlib

/-!
Verification of the iCalendar date-time value codec
(src/icalendar/values/datetime.go of the caldav-go repository).

The Go code is shallowly embedded as executable Lean definitions:

* a Go time.Time is modelled by GoTime: the wall-clock calendar fields read
  in the value's location, a nanosecond remainder, and the location itself;
  this representation is faithful for the whole-second instants the codec
  manipulates, with timezones abstracted to fixed-offset zones drawn from an
  abstract zone database (Tzdb);
* Go strings handled by the codec are modelled as lists of characters
  (ICalText);
* methods that mutate their receiver in place and return an error are
  modelled as functions from the receiver to a pair of the new receiver
  state and an optional error;
* the collaborators that are not part of the provided sources (the CSV list
  codec, the properties constants and the utils error type) are modelled
  from the specification, and are marked as such in their doc comments.
-/

/-- Calendar fields of a wall-clock reading: year, month, day, hour,
minute, second. -/
structure Fields where
  year : Nat
  month : Nat
  day : Nat
  hour : Nat
  minute : Nat
  sec : Nat
deriving DecidableEq

/-- Model of a Go time.Location: either the distinguished UTC location
(pointer-compared as time.UTC in the source), the ambient local zone, or a
named fixed-offset zone.  Offsets are in seconds east of UTC. -/
inductive Location where
  | utc : Location
  | localZ (offset : Int) : Location
  | named (name : String) (offset : Int) : Location
deriving DecidableEq

/-- Offset of a location, in seconds east of UTC. -/
def Location.offsetOf : Location → Int
  | .utc => 0
  | .localZ off => off
  | .named _ off => off

/-- Model of Go Location.String: the location's name. -/
def Location.locString : Location → String
  | .utc => "UTC"
  | .localZ _ => "Local"
  | .named n _ => n

/-- Model of a Go time.Time: wall-clock calendar fields in the time's
location, sub-second nanoseconds, and the location. -/
structure GoTime where
  fields : Fields
  nsec : Nat
  loc : Location
deriving DecidableEq

/-- Model of an abstract timezone database backing time.LoadLocation: the
offset of the ambient local zone and a lookup from canonical zone names to
fixed offsets. -/
structure Tzdb where
  localOffset : Int
  lookup : String → Option Int

/-- Days from the civil epoch 1970-01-01 for a Gregorian date (the standard
days-from-civil computation). -/
def daysFromCivil (y m d : Nat) : Int :=
  let yi : Int := if m ≤ 2 then (y : Int) - 1 else (y : Int)
  let era : Int := (if 0 ≤ yi then yi else yi - 399) / 400
  let yoe : Int := yi - era * 400
  let mi : Int := (m : Int)
  let doy : Int := (153 * (if 2 < m then mi - 3 else mi + 9) + 2) / 5 + (d : Int) - 1
  let doe : Int := yoe * 365 + yoe / 4 - yoe / 100 + doy
  era * 146097 + doe - 719468

/-- Seconds from the civil epoch for a wall-clock reading. -/
def Fields.civilSeconds (f : Fields) : Int :=
  daysFromCivil f.year f.month f.day * 86400
    + ((f.hour * 3600 + f.minute * 60 + f.sec : Nat) : Int)

/-- Absolute instant of a GoTime in seconds since the epoch: its wall-clock
seconds shifted by the location's offset. -/
def GoTime.absSeconds (t : GoTime) : Int :=
  t.fields.civilSeconds - t.loc.offsetOf

/-- Model of Go time.Time.Equal: the two times denote the same instant,
including the nanosecond remainder, independent of location. -/
def GoTime.Equal (t u : GoTime) : Bool :=
  decide (t.absSeconds = u.absSeconds ∧ t.nsec = u.nsec)

/-- The zero Go time.Time: January 1 of year 1, 00:00:00 UTC. -/
def GoTime.zero : GoTime :=
  { fields := ⟨1, 1, 1, 0, 0, 0⟩, nsec := 0, loc := .utc }

/-- Model of Go time.Date for in-range fields (the parsers validate the
ranges, so no field normalization is needed): a whole-second wall-clock
reading in the given location. -/
def mkGoTime (f : Fields) (loc : Location) : GoTime :=
  { fields := f, nsec := 0, loc := loc }

/-- Model of Go time.LoadLocation over the abstract database: the empty
name and UTC resolve to the distinguished UTC location, Local resolves to
the ambient local zone, and any other name resolves through the database,
failing when the name is unknown. -/
def goLoadLocation (tz : Tzdb) (name : String) : Option Location :=
  if name = "" ∨ name = "UTC" then some .utc
  else if name = "Local" then some (.localZ tz.localOffset)
  else (tz.lookup name).map (Location.named name)

/-- Text handled by the codec, modelled as a list of characters. -/
abbrev ICalText := List Char

/-- Decimal digit character for a digit value, as produced by Go's integer
formatting. -/
def digitChar : Nat → Char
  | 0 => '0'
  | 1 => '1'
  | 2 => '2'
  | 3 => '3'
  | 4 => '4'
  | 5 => '5'
  | 6 => '6'
  | 7 => '7'
  | 8 => '8'
  | 9 => '9'
  | _ => '*'

/-- Numeric value of a decimal digit character. -/
def digitVal (c : Char) : Nat := c.toNat - 48

/-- Model of Go's isDigit: the character is an ASCII decimal digit. -/
def isDigitC (c : Char) : Bool := decide (48 ≤ c.toNat ∧ c.toNat ≤ 57)

/-- Two-digit zero-padded decimal rendering (wider if the value does not
fit, as in Go's appendInt). -/
def pad2 (n : Nat) : ICalText :=
  if n < 100 then [digitChar (n / 10 % 10), digitChar (n % 10)]
  else (Nat.repr n).toList

/-- Four-digit zero-padded decimal rendering (wider if the value does not
fit, as in Go's appendInt). -/
def pad4 (n : Nat) : ICalText :=
  if n < 10000 then
    [digitChar (n / 1000 % 10), digitChar (n / 100 % 10),
     digitChar (n / 10 % 10), digitChar (n % 10)]
  else (Nat.repr n).toList

/-- Rendering of a wall-clock reading under the Go layout
20060102T150405. -/
def fmtFields (f : Fields) : ICalText :=
  pad4 f.year ++ pad2 f.month ++ pad2 f.day ++ 'T' ::
    (pad2 f.hour ++ pad2 f.minute ++ pad2 f.sec)

/-- Rendering of a wall-clock reading under the Go layout 20060102. -/
def fmtDateFields (f : Fields) : ICalText :=
  pad4 f.year ++ pad2 f.month ++ pad2 f.day

/-- The DateFormatString constant of the source. -/
def DateFormatString : ICalText := "20060102".toList

/-- The DateTimeFormatString constant of the source. -/
def DateTimeFormatString : ICalText := "20060102T150405".toList

/-- The UTCDateTimeFormatString constant of the source. -/
def UTCDateTimeFormatString : ICalText := "20060102T150405Z".toList

/-- Model of strings.HasSuffix value Z: the text ends in the character
Z. -/
def hasSuffixZ (cs : ICalText) : Bool := decide (cs.getLast? = some 'Z')

/-- Model of Go's isLeap. -/
def isLeap (y : Nat) : Bool := decide (y % 4 = 0 ∧ (y % 100 ≠ 0 ∨ y % 400 = 0))

/-- Model of Go's daysIn: the number of days of a month. -/
def daysIn (m y : Nat) : Nat :=
  if m = 2 then (if isLeap y then 29 else 28)
  else if m = 1 ∨ m = 3 ∨ m = 5 ∨ m = 7 ∨ m = 8 ∨ m = 10 ∨ m = 12 then 31
  else 30

/-- The range validation Go's Parse performs on the parsed fields: month,
day, hour, minute and second within their calendar ranges. -/
def rangesOk (f : Fields) : Prop :=
  1 ≤ f.month ∧ f.month ≤ 12 ∧ 1 ≤ f.day ∧ f.day ≤ daysIn f.month f.year ∧
    f.hour ≤ 23 ∧ f.minute ≤ 59 ∧ f.sec ≤ 59

instance (f : Fields) : Decidable (rangesOk f) := by
  unfold rangesOk; infer_instance

/-- Combined value of two decimal digit characters. -/
def d2v (a b : Char) : Nat := 10 * digitVal a + digitVal b

/-- Combined value of four decimal digit characters. -/
def d4v (a b c d : Char) : Nat :=
  1000 * digitVal a + 100 * digitVal b + 10 * digitVal c + digitVal d

/-- Parser for the layout 20060102T150405: exactly four year digits, two
month digits, two day digits, the literal T, and two digits each for hour,
minute and second, followed by the range validation. -/
def parseDateTimeL : ICalText → Option Fields
  | [a1, a2, a3, a4, b1, b2, c1, c2, tc, e1, e2, f1, f2, g1, g2] =>
    if tc = 'T' ∧ (isDigitC a1 && isDigitC a2 && isDigitC a3 && isDigitC a4 &&
        isDigitC b1 && isDigitC b2 && isDigitC c1 && isDigitC c2 &&
        isDigitC e1 && isDigitC e2 && isDigitC f1 && isDigitC f2 &&
        isDigitC g1 && isDigitC g2) = true then
      if rangesOk ⟨d4v a1 a2 a3 a4, d2v b1 b2, d2v c1 c2, d2v e1 e2, d2v f1 f2, d2v g1 g2⟩ then
        some ⟨d4v a1 a2 a3 a4, d2v b1 b2, d2v c1 c2, d2v e1 e2, d2v f1 f2, d2v g1 g2⟩
      else none
    else none
  | _ => none

/-- Parser for the layout 20060102: exactly four year digits, two month
digits and two day digits; the time of day defaults to midnight. -/
def parseDateOnlyL : ICalText → Option Fields
  | [a1, a2, a3, a4, b1, b2, c1, c2] =>
    if (isDigitC a1 && isDigitC a2 && isDigitC a3 && isDigitC a4 &&
        isDigitC b1 && isDigitC b2 && isDigitC c1 && isDigitC c2) = true then
      if rangesOk ⟨d4v a1 a2 a3 a4, d2v b1 b2, d2v c1 c2, 0, 0, 0⟩ then
        some ⟨d4v a1 a2 a3 a4, d2v b1 b2, d2v c1 c2, 0, 0, 0⟩
      else none
    else none
  | _ => none

/-- Parser for the layout 20060102T150405Z: the local date-time layout
followed by the literal Z. -/
def parseUTCDateTimeL : ICalText → Option Fields
  | [a1, a2, a3, a4, b1, b2, c1, c2, tc, e1, e2, f1, f2, g1, g2, zc] =>
    if tc = 'T' ∧ zc = 'Z' ∧ (isDigitC a1 && isDigitC a2 && isDigitC a3 &&
        isDigitC a4 && isDigitC b1 && isDigitC b2 && isDigitC c1 &&
        isDigitC c2 && isDigitC e1 && isDigitC e2 && isDigitC f1 &&
        isDigitC f2 && isDigitC g1 && isDigitC g2) = true then
      if rangesOk ⟨d4v a1 a2 a3 a4, d2v b1 b2, d2v c1 c2, d2v e1 e2, d2v f1 f2, d2v g1 g2⟩ then
        some ⟨d4v a1 a2 a3 a4, d2v b1 b2, d2v c1 c2, d2v e1 e2, d2v f1 f2, d2v g1 g2⟩
      else none
    else none
  | _ => none

/-- Model of time.ParseInLocation restricted to the three layout constants
the codec uses; on success the parsed wall-clock reading is anchored to the
given location, none models Go's parse error. -/
def goParseInLocation (layout value : ICalText) (loc : Location) : Option GoTime :=
  if layout = UTCDateTimeFormatString then (parseUTCDateTimeL value).map (mkGoTime · loc)
  else if layout = DateFormatString then (parseDateOnlyL value).map (mkGoTime · loc)
  else if layout = DateTimeFormatString then (parseDateTimeL value).map (mkGoTime · loc)
  else none

/-- Model of time.Time.Format restricted to the two layout constants the
codec uses: it renders the wall-clock fields of the time. -/
def goFormat (layout : ICalText) (t : GoTime) : ICalText :=
  if layout = DateTimeFormatString then fmtFields t.fields
  else if layout = DateFormatString then fmtDateFields t.fields
  else []

/-- Modelled from the spec: the timezone-identifier parameter key of the
properties package (not part of the provided sources); the spec describes a
parameter block recognizing exactly one key, a timezone identifier. -/
def TimeZoneIdPropertyName : String := "TZID"

/-- Modelled from the spec: the parameter block of the properties package
(not part of the provided sources), a mapping from parameter name to value,
represented as an association list. -/
abbrev Params := List (String × String)

/-- Lookup of a parameter by name in a parameter block. -/
def lookupParam (params : Params) (key : String) : Option String :=
  (params.find? (fun p => p.1 == key)).map (fun p => p.2)

/-- Identity of the operation a surfaced error reports, as passed by the
source to utils.NewError: each constructor is one method value the source
mentions at an error construction site. -/
inductive ErrOp where
  | DateTimeDecodeICalValue : ErrOp
  | DateTimeValidateICalValue : ErrOp
  | DateTimesEncodeICalValue : ErrOp
  | DateTimesDecodeICalValue : ErrOp
deriving DecidableEq

/-- A representation of a date and time for iCalendar (the DateTime struct
of the source). -/
structure DateTime where
  t : GoTime
deriving DecidableEq

/-- Ordered list of datetimes (the DateTimes slice of the source). -/
abbrev DateTimes := List DateTime

/-- The offending instance attached to a surfaced error: either a single
datetime value or a datetime list, snapshotted at the moment the error is
built. -/
inductive ErrInstance where
  | dt (d : DateTime) : ErrInstance
  | dts (ds : DateTimes) : ErrInstance
deriving DecidableEq

/-- Errors of the embedded code: the Go parse error (carrying layout and
value), the LoadLocation error (carrying the unknown name), the CSV decode
error, and the structured error of the utils package, with and without an
underlying cause. -/
inductive GoErr where
  | goParseError (layout value : ICalText) : GoErr
  | tzLoadError (name : String) : GoErr
  | csvDecodeError (value : ICalText) : GoErr
  | calErrorNil (op : ErrOp) (msg : String) (inst : ErrInstance) : GoErr
  | calErrorCause (op : ErrOp) (msg : String) (inst : ErrInstance) (cause : GoErr) : GoErr
deriving DecidableEq

/-- Modelled from the spec: utils.NewError (not part of the provided
sources); every surfaced error carries a failing-operation identity, a
human-readable message, the offending instance and an optional underlying
cause. -/
def NewError (op : ErrOp) (msg : String) (inst : ErrInstance) : Option GoErr → GoErr
  | none => .calErrorNil op msg inst
  | some c => .calErrorCause op msg inst c

/-- Operation identity recorded in a structured error, when the error is
one. -/
def GoErr.opOf : GoErr → Option ErrOp
  | .calErrorNil op _ _ => some op
  | .calErrorCause op _ _ _ => some op
  | _ => none

/-- Message recorded in a structured error, when the error is one. -/
def GoErr.msgOf : GoErr → Option String
  | .calErrorNil _ msg _ => some msg
  | .calErrorCause _ msg _ _ => some msg
  | _ => none

/-- Underlying cause recorded in a structured error, when the error is
one. -/
def GoErr.causeOf : GoErr → Option GoErr
  | .calErrorCause _ _ _ c => some c
  | _ => none

/-- Model of NewDateTime of the source: the instant is truncated to whole
seconds at construction. -/
def NewDateTime (t : GoTime) : DateTime := ⟨{ t with nsec := 0 }⟩

/-- Model of DateTime.Equals of the source: instant equality, independent
of zone representation. -/
def DateTime.Equals (d test : DateTime) : Bool := d.t.Equal test.t

/-- Model of DateTime.EncodeICalValue of the source: format with the local
date-time layout and append Z exactly when the location is the
distinguished UTC location; never fails. -/
def DateTime.EncodeICalValue (d : DateTime) : ICalText × Option GoErr :=
  let val := goFormat DateTimeFormatString d.t
  (if d.t.loc = .utc then val ++ ['Z'] else val, none)

/-- Model of DateTime.DecodeICalValue of the source: sniff the layout
(trailing Z, then length eight, otherwise local date-time), parse in UTC,
and on parse failure surface a structured error; the receiver's time is
assigned the parse result in either case, hence the zero time on
failure. -/
def DateTime.DecodeICalValue (_d : DateTime) (value : ICalText) : DateTime × Option GoErr :=
  let layout := if hasSuffixZ value then UTCDateTimeFormatString
    else if value.length = 8 then DateFormatString
    else DateTimeFormatString
  match goParseInLocation layout value .utc with
  | some t => (⟨t⟩, none)
  | none =>
    (⟨GoTime.zero⟩,
      some (NewError .DateTimeDecodeICalValue ("unable to parse datetime value")
        (.dt ⟨GoTime.zero⟩) (some (.goParseError layout value))))

/-- Model of DateTime.EncodeICalParams of the source: no parameters for the
UTC location, otherwise a single timezone-identifier parameter carrying the
location's name; never fails. -/
def DateTime.EncodeICalParams (d : DateTime) : Params × Option GoErr :=
  if d.t.loc ≠ .utc then ([(TimeZoneIdPropertyName, d.t.loc.locString)], none)
  else ([], none)

/-- Model of DateTime.DecodeICalParams of the source: when no
timezone-identifier parameter is present, a no-op; otherwise resolve the
named zone and re-parse the local text form of the stored time against it,
replacing the stored instant only on success.  The operation identity put
on both errors is the DecodeICalValue method value, as in the source. -/
def DateTime.DecodeICalParams (tz : Tzdb) (d : DateTime) (params : Params) :
    DateTime × Option GoErr :=
  let layout := DateTimeFormatString
  let value := goFormat layout d.t
  match lookupParam params TimeZoneIdPropertyName with
  | none => (d, none)
  | some name =>
    match goLoadLocation tz name with
    | none =>
      (d, some (NewError .DateTimeDecodeICalValue ("unable to parse timezone")
        (.dt d) (some (.tzLoadError name))))
    | some loc =>
      match goParseInLocation layout value loc with
      | none =>
        (d, some (NewError .DateTimeDecodeICalValue ("unable to parse datetime value")
          (.dt d) (some (.goParseError layout value))))
      | some t => (⟨t⟩, none)

/-- Model of DateTime.ValidateICalValue of the source: fails when the
location is the ambient local zone or when its name is empty. -/
def DateTime.ValidateICalValue (d : DateTime) : Option GoErr :=
  match d.t.loc with
  | .localZ _ =>
    some (NewError .DateTimeValidateICalValue
      ("DateTime location may not Local, please use UTC or explicit Location") (.dt d) none)
  | loc =>
    if loc.locString = "" then
      some (NewError .DateTimeValidateICalValue
        ("DateTime location must have a valid name") (.dt d) none)
    else none

/-- Model of DateTime.String of the source: the encoded value; the panic on
an encoding error is modelled by none. -/
def DateTime.string (d : DateTime) : Option ICalText :=
  match d.EncodeICalValue with
  | (s, none) => some s
  | (_, some _) => none

/-- Model of DateTimeFullDay.EncodeICalValue of the source: format with the
date-only layout and append Z exactly when the location is the
distinguished UTC location; never fails.  DateTimeFullDay shares DateTime's
storage. -/
def DateTimeFullDay.EncodeICalValue (d : DateTime) : ICalText × Option GoErr :=
  let val := goFormat DateFormatString d.t
  (if d.t.loc = .utc then val ++ ['Z'] else val, none)

/-- Modelled from the spec: escaping of one token by the generic
comma-separated list codec (the CSV type of the values package, not part of
the provided sources): commas and backslashes are escaped with a
backslash. -/
def csvEscape : ICalText → ICalText
  | [] => []
  | c :: rest =>
    if c = ',' ∨ c = '\\' then '\\' :: c :: csvEscape rest
    else c :: csvEscape rest

/-- Modelled from the spec: CSV.EncodeICalValue of the values package (not
part of the provided sources): escape each token and join with commas;
never fails. -/
def csvEncodeICalValue (xs : List ICalText) : ICalText × Option GoErr :=
  (List.intercalate [','] (xs.map csvEscape), none)

/-- Modelled from the spec: the splitting core of CSV.DecodeICalValue of
the values package (not part of the provided sources): split on unescaped
commas, unescaping backslash sequences, and fail on a dangling escape. -/
def csvSplit : ICalText → Option (List ICalText)
  | [] => some [[]]
  | '\\' :: [] => none
  | '\\' :: c :: rest =>
    (csvSplit rest).map (fun ts =>
      match ts with
      | t :: ts2 => (c :: t) :: ts2
      | [] => [[c]])
  | ',' :: rest => (csvSplit rest).map (fun ts => [] :: ts)
  | c :: rest =>
    (csvSplit rest).map (fun ts =>
      match ts with
      | t :: ts2 => (c :: t) :: ts2
      | [] => [[c]])

/-- Modelled from the spec: CSV.DecodeICalValue of the values package (not
part of the provided sources), as the list-token decoder the datetime list
decoder calls first. -/
def csvDecodeICalValue (value : ICalText) : Except GoErr (List ICalText) :=
  match csvSplit value with
  | some toks => .ok toks
  | none => .error (.csvDecodeError value)

/-- Encoding loop of DateTimes.EncodeICalValue of the source: encode each
element, failing fast with the failing index; the instance snapshot is the
whole list. -/
def DateTimes.EncodeICalValueAux (ds0 : DateTimes) (i : Nat) :
    List DateTime → Except GoErr (List ICalText)
  | [] => .ok []
  | d :: rest =>
    match d.EncodeICalValue with
    | (s, none) => (DateTimes.EncodeICalValueAux ds0 (i + 1) rest).map (s :: ·)
    | (_, some e) =>
      .error (NewError .DateTimesEncodeICalValue
        ("unable to encode datetime at index " ++ Nat.repr i) (.dts ds0) (some e))

/-- Model of DateTimes.EncodeICalValue of the source: encode each element
and join with the CSV codec; the empty text is returned on an element
failure. -/
def DateTimes.EncodeICalValue (ds : DateTimes) : ICalText × Option GoErr :=
  match DateTimes.EncodeICalValueAux ds 0 ds with
  | .ok csv => csvEncodeICalValue csv
  | .error e => ([], some e)

/-- Model of DateTimes.EncodeICalParams of the source: delegate to the
first element when the list is non-empty. -/
def DateTimes.EncodeICalParams (ds : DateTimes) : Params × Option GoErr :=
  match ds with
  | [] => ([], none)
  | d :: _ => d.EncodeICalParams

/-- Decoding loop of DateTimes.DecodeICalParams of the source: apply the
same parameter block to each element in order; on the first element
failure, stop, leaving the failing element and its successors unmodified,
and surface an error naming the failing index whose instance is the list in
its current state. -/
def DateTimes.DecodeICalParamsAux (tz : Tzdb) (params : Params)
    (acc : DateTimes) (i : Nat) : List DateTime → DateTimes × Option GoErr
  | [] => (acc, none)
  | d :: rest =>
    match DateTime.DecodeICalParams tz d params with
    | (d2, none) => DateTimes.DecodeICalParamsAux tz params (acc ++ [d2]) (i + 1) rest
    | (_, some e) =>
      let cur := acc ++ d :: rest
      (cur, some (NewError .DateTimesDecodeICalValue
        ("unable to decode datetime params for index " ++ Nat.repr i)
        (.dts cur) (some e)))

/-- Model of DateTimes.DecodeICalParams of the source.  The operation
identity put on the error is the DecodeICalValue method value, as in the
source. -/
def DateTimes.DecodeICalParams (tz : Tzdb) (ds : DateTimes) (params : Params) :
    DateTimes × Option GoErr :=
  DateTimes.DecodeICalParamsAux tz params [] 0 ds

/-- Decoding loop of DateTimes.DecodeICalValue of the source: decode each
token into a fresh zero-valued DateTime, appending on success; on the first
token failure, stop and surface an error naming the failing index whose
instance is the list in its current state (prior appends retained). -/
def DateTimes.DecodeICalValueAux (acc : DateTimes) (i : Nat) :
    List ICalText → DateTimes × Option GoErr
  | [] => (acc, none)
  | tok :: rest =>
    match DateTime.DecodeICalValue ⟨GoTime.zero⟩ tok with
    | (d, none) => DateTimes.DecodeICalValueAux (acc ++ [d]) (i + 1) rest
    | (_, some e) =>
      (acc, some (NewError .DateTimesDecodeICalValue
        ("unable to decode datetime at index " ++ Nat.repr i)
        (.dts acc) (some e)))

/-- Model of DateTimes.DecodeICalValue of the source: split via the CSV
codec, then decode each token in order, appending to the existing list. -/
def DateTimes.DecodeICalValue (ds : DateTimes) (value : ICalText) :
    DateTimes × Option GoErr :=
  match csvDecodeICalValue value with
  | .error e =>
    (ds, some (NewError .DateTimesDecodeICalValue
      ("unable to decode datetime list as CSV") (.dts ds) (some e)))
  | .ok toks => DateTimes.DecodeICalValueAux ds 0 toks

/-- A decimal digit character produced by the formatter satisfies the
parser's digit test. -/
theorem isDigitC_digitChar (k : Nat) : isDigitC (digitChar (k % 10)) = true := by
  have h : k % 10 < 10 := Nat.mod_lt k (by omega)
  revert h
  generalize k % 10 = m
  intro h
  interval_cases m <;> decide

/-- Parsing a decimal digit character recovers its value. -/
theorem digitVal_digitChar (k : Nat) : digitVal (digitChar (k % 10)) = k % 10 := by
  have h : k % 10 < 10 := Nat.mod_lt k (by omega)
  revert h
  generalize k % 10 = m
  intro h
  interval_cases m <;> decide

/-- A decimal digit character is not the letter Z. -/
theorem digitChar_ne_Z (k : Nat) : digitChar (k % 10) ≠ 'Z' := by
  have h : k % 10 < 10 := Nat.mod_lt k (by omega)
  revert h
  generalize k % 10 = m
  intro h
  interval_cases m <;> decide

/-- Every month has at most 31 days. -/
theorem daysIn_le (m y : Nat) : daysIn m y ≤ 31 := by
  unfold daysIn
  split <;> split <;> omega

/-- The in-range fields of a parsed time are all below one hundred, so the
two-digit renderings take their padded branch. -/
theorem fields_bounds (f : Fields) (hr : rangesOk f) :
    f.month < 100 ∧ f.day < 100 ∧ f.hour < 100 ∧ f.minute < 100 ∧ f.sec < 100 := by
  obtain ⟨h1, h2, h3, h4, h5, h6, h7⟩ := hr
  have := daysIn_le f.month f.year
  omega

/-- Expansion of the local date-time rendering of an in-range, four-digit
wall-clock reading into its fifteen characters. -/
theorem fmtFields_expand (f : Fields) (hy : f.year ≤ 9999) (hr : rangesOk f) :
    fmtFields f =
      [digitChar (f.year / 1000 % 10), digitChar (f.year / 100 % 10),
       digitChar (f.year / 10 % 10), digitChar (f.year % 10),
       digitChar (f.month / 10 % 10), digitChar (f.month % 10),
       digitChar (f.day / 10 % 10), digitChar (f.day % 10), 'T',
       digitChar (f.hour / 10 % 10), digitChar (f.hour % 10),
       digitChar (f.minute / 10 % 10), digitChar (f.minute % 10),
       digitChar (f.sec / 10 % 10), digitChar (f.sec % 10)] := by
  obtain ⟨b1, b2, b3, b4, b5⟩ := fields_bounds f hr
  simp [fmtFields, pad4, pad2, show f.year < 10000 by omega, b1, b2, b3, b4, b5]

/-- Expansion of the date-only rendering of an in-range, four-digit
wall-clock reading into its eight characters. -/
theorem fmtDateFields_expand (f : Fields) (hy : f.year ≤ 9999) (hr : rangesOk f) :
    fmtDateFields f =
      [digitChar (f.year / 1000 % 10), digitChar (f.year / 100 % 10),
       digitChar (f.year / 10 % 10), digitChar (f.year % 10),
       digitChar (f.month / 10 % 10), digitChar (f.month % 10),
       digitChar (f.day / 10 % 10), digitChar (f.day % 10)] := by
  obtain ⟨b1, b2, b3, b4, b5⟩ := fields_bounds f hr
  simp [fmtDateFields, pad4, pad2, show f.year < 10000 by omega, b1, b2]

/-- The guarded range check returns the parsed fields once they are known
to coincide with in-range fields. -/
theorem ite_ranges_eq (F f : Fields) (hEq : F = f) (hr : rangesOk f) :
    (if rangesOk F then some F else none) = some f := by
  subst hEq
  rw [if_pos hr]

/-- Parsing the local date-time rendering of an in-range, four-digit
wall-clock reading recovers the reading. -/
theorem parseDateTimeL_fmtFields (f : Fields) (hy : f.year ≤ 9999) (hr : rangesOk f) :
    parseDateTimeL (fmtFields f) = some f := by
  obtain ⟨h1, h2, h3, h4, h5, h6, h7⟩ := hr
  have hd := daysIn_le f.month f.year
  rw [fmtFields_expand f hy ⟨h1, h2, h3, h4, h5, h6, h7⟩]
  simp only [parseDateTimeL, isDigitC_digitChar, Bool.and_self, and_true, true_and,
    Bool.and_true, Bool.true_and, if_true, eq_self_iff_true]
  refine ite_ranges_eq _ f ?_ ⟨h1, h2, h3, h4, h5, h6, h7⟩
  obtain ⟨y, mo, dy, hh, mi, ss⟩ := f
  simp only [d4v, d2v, digitVal_digitChar, Fields.mk.injEq] at hy h1 h2 h3 h4 h5 h6 h7 hd ⊢
  omega

/-- Parsing the UTC rendering (the local date-time rendering followed by Z)
of an in-range, four-digit wall-clock reading recovers the reading. -/
theorem parseUTCDateTimeL_fmtFields (f : Fields) (hy : f.year ≤ 9999) (hr : rangesOk f) :
    parseUTCDateTimeL (fmtFields f ++ ['Z']) = some f := by
  obtain ⟨h1, h2, h3, h4, h5, h6, h7⟩ := hr
  have hd := daysIn_le f.month f.year
  rw [fmtFields_expand f hy ⟨h1, h2, h3, h4, h5, h6, h7⟩]
  simp only [List.cons_append, List.nil_append]
  simp only [parseUTCDateTimeL, isDigitC_digitChar, Bool.and_self, and_true, true_and,
    Bool.and_true, Bool.true_and, if_true, eq_self_iff_true]
  refine ite_ranges_eq _ f ?_ ⟨h1, h2, h3, h4, h5, h6, h7⟩
  obtain ⟨y, mo, dy, hh, mi, ss⟩ := f
  simp only [d4v, d2v, digitVal_digitChar, Fields.mk.injEq] at hy h1 h2 h3 h4 h5 h6 h7 hd ⊢
  omega

/-- The local date-time rendering does not end in Z. -/
theorem hasSuffixZ_fmtFields (f : Fields) (hy : f.year ≤ 9999) (hr : rangesOk f) :
    hasSuffixZ (fmtFields f) = false := by
  rw [fmtFields_expand f hy hr]
  simp [hasSuffixZ, List.getLast?, List.getLast, digitChar_ne_Z]

/-- A text extended with Z ends in Z. -/
theorem hasSuffixZ_append_Z (cs : ICalText) : hasSuffixZ (cs ++ ['Z']) = true := by
  simp [hasSuffixZ, List.getLast?_concat]

/-- The local date-time rendering of an in-range, four-digit reading is
fifteen characters long. -/
theorem length_fmtFields (f : Fields) (hy : f.year ≤ 9999) (hr : rangesOk f) :
    (fmtFields f).length = 15 := by
  rw [fmtFields_expand f hy hr]
  rfl

/-- Dispatch of the parse model at the local date-time layout constant. -/
theorem goParseInLocation_DT (value : ICalText) (loc : Location) :
    goParseInLocation DateTimeFormatString value loc
      = (parseDateTimeL value).map (mkGoTime · loc) := by
  unfold goParseInLocation
  rw [if_neg (by decide), if_neg (by decide), if_pos rfl]

/-- Dispatch of the parse model at the UTC date-time layout constant. -/
theorem goParseInLocation_UTC (value : ICalText) (loc : Location) :
    goParseInLocation UTCDateTimeFormatString value loc
      = (parseUTCDateTimeL value).map (mkGoTime · loc) := by
  unfold goParseInLocation
  rw [if_pos rfl]

/-- Dispatch of the parse model at the date-only layout constant. -/
theorem goParseInLocation_Date (value : ICalText) (loc : Location) :
    goParseInLocation DateFormatString value loc
      = (parseDateOnlyL value).map (mkGoTime · loc) := by
  unfold goParseInLocation
  rw [if_neg (by decide), if_pos rfl]

/-- Dispatch of the format model at the local date-time layout constant. -/
theorem goFormat_DT (t : GoTime) : goFormat DateTimeFormatString t = fmtFields t.fields := by
  unfold goFormat
  rw [if_pos rfl]

/-- Dispatch of the format model at the date-only layout constant. -/
theorem goFormat_Date (t : GoTime) : goFormat DateFormatString t = fmtDateFields t.fields := by
  unfold goFormat
  rw [if_neg (by decide), if_pos rfl]

/-- Decoding the local date-time rendering of an in-range reading succeeds
and anchors the parsed reading to UTC. -/
theorem DecodeICalValue_fmtFields (d0 : DateTime) (f : Fields)
    (hy : f.year ≤ 9999) (hr : rangesOk f) :
    DateTime.DecodeICalValue d0 (fmtFields f) = (⟨mkGoTime f Location.utc⟩, none) := by
  simp [DateTime.DecodeICalValue, hasSuffixZ_fmtFields f hy hr,
    length_fmtFields f hy hr, goParseInLocation_DT, parseDateTimeL_fmtFields f hy hr]

/-- Decoding the UTC rendering of an in-range reading succeeds and anchors
the parsed reading to UTC. -/
theorem DecodeICalValue_fmtFieldsZ (d0 : DateTime) (f : Fields)
    (hy : f.year ≤ 9999) (hr : rangesOk f) :
    DateTime.DecodeICalValue d0 (fmtFields f ++ ['Z']) = (⟨mkGoTime f Location.utc⟩, none) := by
  simp [DateTime.DecodeICalValue, hasSuffixZ_append_Z, goParseInLocation_UTC,
    parseUTCDateTimeL_fmtFields f hy hr]

/-- Decoding a timezone-identifier parameter on a UTC-anchored in-range
reading re-parses the same wall-clock reading in the loaded location. -/
theorem DecodeICalParams_tzid (tz : Tzdb) (f : Fields) (n : String) (loc : Location)
    (hy : f.year ≤ 9999) (hr : rangesOk f)
    (hload : goLoadLocation tz n = some loc) :
    DateTime.DecodeICalParams tz ⟨mkGoTime f Location.utc⟩ [(TimeZoneIdPropertyName, n)]
      = (⟨mkGoTime f loc⟩, none) := by
  simp [DateTime.DecodeICalParams, lookupParam, List.find?, beq_self_eq_true,
    goFormat_DT, mkGoTime, hload, goParseInLocation_DT, parseDateTimeL_fmtFields f hy hr]

/-- C1: zoned two-pass round-trip.  For every DateTime whose instant is a
whole-second, in-range reading and whose zone is a named zone loadable from
the database, decoding a fresh DateTime from the encoded value and then
decoding the encoded parameters succeeds and reproduces the instant and the
zone. -/
theorem claim_C1 (tz : Tzdb) (v : DateTime) (n : String) (off : Int)
    (hloc : v.t.loc = Location.named n off)
    (hload : goLoadLocation tz n = some (Location.named n off))
    (hns : v.t.nsec = 0)
    (hy : v.t.fields.year ≤ 9999) (hr : rangesOk v.t.fields) :
    ((DateTime.DecodeICalValue ⟨GoTime.zero⟩ ((DateTime.EncodeICalValue v).1)).2 = none) ∧
    ((DateTime.DecodeICalParams tz
        ((DateTime.DecodeICalValue ⟨GoTime.zero⟩ ((DateTime.EncodeICalValue v).1)).1)
        ((DateTime.EncodeICalParams v).1)).2 = none) ∧
    (DateTime.Equals ((DateTime.DecodeICalParams tz
        ((DateTime.DecodeICalValue ⟨GoTime.zero⟩ ((DateTime.EncodeICalValue v).1)).1)
        ((DateTime.EncodeICalParams v).1)).1) v = true) ∧
    (((DateTime.DecodeICalParams tz
        ((DateTime.DecodeICalValue ⟨GoTime.zero⟩ ((DateTime.EncodeICalValue v).1)).1)
        ((DateTime.EncodeICalParams v).1)).1).t.loc = v.t.loc) := by
  have hEnc : (DateTime.EncodeICalValue v).1 = fmtFields v.t.fields := by
    simp [DateTime.EncodeICalValue, goFormat_DT, hloc]
  have hEncP : (DateTime.EncodeICalParams v).1 = [(TimeZoneIdPropertyName, n)] := by
    simp [DateTime.EncodeICalParams, hloc, Location.locString]
  have hDec : DateTime.DecodeICalValue ⟨GoTime.zero⟩ ((DateTime.EncodeICalValue v).1)
      = (⟨mkGoTime v.t.fields Location.utc⟩, none) := by
    rw [hEnc]
    exact DecodeICalValue_fmtFields _ _ hy hr
  have hP : DateTime.DecodeICalParams tz ⟨mkGoTime v.t.fields Location.utc⟩
        [(TimeZoneIdPropertyName, n)]
      = (⟨mkGoTime v.t.fields (Location.named n off)⟩, none) :=
    DecodeICalParams_tzid tz v.t.fields n (Location.named n off) hy hr hload
  have hv : v.t = mkGoTime v.t.fields (Location.named n off) := by
    obtain ⟨⟨fl, ns, lc⟩⟩ := v
    simp only at hloc hns
    simp [mkGoTime, hloc, hns]
  refine ⟨by rw [hDec], ?_, ?_, ?_⟩
  · simp only [hDec, hEncP, hP]
  · simp only [hDec, hEncP, hP]
    simp [DateTime.Equals, GoTime.Equal, ← hv]
  · simp only [hDec, hEncP, hP]
    simp [mkGoTime, hloc]

/-- Database used by the concrete witnesses: a single named fixed-offset
zone. -/
def tzEx : Tzdb :=
  ⟨0, fun s => if s = "America/New_York" then some (-18000) else none⟩

/-- Concrete zoned value used by the C1 witness. -/
def vEx : DateTime :=
  ⟨⟨⟨2024, 6, 1, 12, 30, 45⟩, 0, Location.named "America/New_York" (-18000)⟩⟩

/-- C1 witness: the round-trip at a concrete zoned value. -/
theorem claim_C1_witness :
    ((DateTime.DecodeICalValue ⟨GoTime.zero⟩ ((DateTime.EncodeICalValue vEx).1)).2 = none) ∧
    ((DateTime.DecodeICalParams tzEx
        ((DateTime.DecodeICalValue ⟨GoTime.zero⟩ ((DateTime.EncodeICalValue vEx).1)).1)
        ((DateTime.EncodeICalParams vEx).1)).2 = none) ∧
    (DateTime.Equals ((DateTime.DecodeICalParams tzEx
        ((DateTime.DecodeICalValue ⟨GoTime.zero⟩ ((DateTime.EncodeICalValue vEx).1)).1)
        ((DateTime.EncodeICalParams vEx).1)).1) vEx = true) ∧
    (((DateTime.DecodeICalParams tzEx
        ((DateTime.DecodeICalValue ⟨GoTime.zero⟩ ((DateTime.EncodeICalValue vEx).1)).1)
        ((DateTime.EncodeICalParams vEx).1)).1).t.loc = vEx.t.loc) :=
  claim_C1 tzEx vEx "America/New_York" (-18000) rfl (by decide) rfl (by decide) (by decide)

/-- C3: UTC round-trip.  For every DateTime whose instant is a
whole-second, in-range reading located in UTC, decoding the encoded value
succeeds and yields an instant equal to the original at second
precision. -/
theorem claim_C3 (v : DateTime) (hloc : v.t.loc = Location.utc) (hns : v.t.nsec = 0)
    (hy : v.t.fields.year ≤ 9999) (hr : rangesOk v.t.fields) :
    ((DateTime.DecodeICalValue ⟨GoTime.zero⟩ ((DateTime.EncodeICalValue v).1)).2 = none) ∧
    (DateTime.Equals ((DateTime.DecodeICalValue ⟨GoTime.zero⟩
        ((DateTime.EncodeICalValue v).1)).1) v = true) := by
  have hEnc : (DateTime.EncodeICalValue v).1 = fmtFields v.t.fields ++ ['Z'] := by
    simp [DateTime.EncodeICalValue, goFormat_DT, hloc]
  have hDec := DecodeICalValue_fmtFieldsZ (⟨GoTime.zero⟩ : DateTime) v.t.fields hy hr
  have hv : v.t = mkGoTime v.t.fields Location.utc := by
    obtain ⟨⟨fl, ns, lc⟩⟩ := v
    simp only at hloc hns
    simp [mkGoTime, hloc, hns]
  constructor
  · rw [hEnc, hDec]
  · rw [hEnc]
    simp only [hDec]
    simp [DateTime.Equals, GoTime.Equal, ← hv]

/-- Concrete UTC value used by the C3 witness. -/
def vExUTC : DateTime := ⟨⟨⟨2024, 1, 1, 0, 0, 0⟩, 0, Location.utc⟩⟩

/-- C3 witness: the UTC round-trip at a concrete value. -/
theorem claim_C3_witness :
    ((DateTime.DecodeICalValue ⟨GoTime.zero⟩ ((DateTime.EncodeICalValue vExUTC).1)).2 = none) ∧
    (DateTime.Equals ((DateTime.DecodeICalValue ⟨GoTime.zero⟩
        ((DateTime.EncodeICalValue vExUTC).1)).1) vExUTC = true) :=
  claim_C3 vExUTC rfl rfl (by decide) (by decide)

/-- The date-only rendering does not end in Z. -/
theorem hasSuffixZ_fmtDateFields (f : Fields) (hy : f.year ≤ 9999) (hr : rangesOk f) :
    hasSuffixZ (fmtDateFields f) = false := by
  rw [fmtDateFields_expand f hy hr]
  simp [hasSuffixZ, List.getLast?, List.getLast, digitChar_ne_Z]

/-- A successful parse anchors the resulting time to the location handed to
the parse model. -/
theorem goParseInLocation_loc (layout v : ICalText) (loc : Location) (t : GoTime)
    (h : goParseInLocation layout v loc = some t) : t.loc = loc := by
  unfold goParseInLocation at h
  split at h
  · obtain ⟨f, hf, rfl⟩ := Option.map_eq_some'.1 h
    rfl
  · split at h
    · obtain ⟨f, hf, rfl⟩ := Option.map_eq_some'.1 h
      rfl
    · split at h
      · obtain ⟨f, hf, rfl⟩ := Option.map_eq_some'.1 h
        rfl
      · exact Option.noConfusion h

/-- C2: DecodeICalValue format sniffing.  A trailing Z selects the UTC
date-time layout; otherwise a length of eight selects the date-only layout,
whose parse leaves the time of day at midnight; otherwise the local
date-time layout is used, anchored to UTC; a layout mismatch surfaces a
structured error wrapping a parse error that carries the raw text, with the
receiver (already overwritten with the zero time) as the offending
instance. -/
theorem claim_C2 (d0 : DateTime) (v : ICalText) :
    (hasSuffixZ v = true →
      DateTime.DecodeICalValue d0 v =
        match parseUTCDateTimeL v with
        | some f => (⟨mkGoTime f Location.utc⟩, none)
        | none => (⟨GoTime.zero⟩,
            some (NewError .DateTimeDecodeICalValue ("unable to parse datetime value")
              (.dt ⟨GoTime.zero⟩) (some (.goParseError UTCDateTimeFormatString v)))))
  ∧ (hasSuffixZ v = false → v.length = 8 →
      DateTime.DecodeICalValue d0 v =
        match parseDateOnlyL v with
        | some f => (⟨mkGoTime f Location.utc⟩, none)
        | none => (⟨GoTime.zero⟩,
            some (NewError .DateTimeDecodeICalValue ("unable to parse datetime value")
              (.dt ⟨GoTime.zero⟩) (some (.goParseError DateFormatString v)))))
  ∧ (hasSuffixZ v = false → v.length ≠ 8 →
      DateTime.DecodeICalValue d0 v =
        match parseDateTimeL v with
        | some f => (⟨mkGoTime f Location.utc⟩, none)
        | none => (⟨GoTime.zero⟩,
            some (NewError .DateTimeDecodeICalValue ("unable to parse datetime value")
              (.dt ⟨GoTime.zero⟩) (some (.goParseError DateTimeFormatString v)))))
  ∧ (∀ f, parseDateOnlyL v = some f → f.hour = 0 ∧ f.minute = 0 ∧ f.sec = 0) := by
  refine ⟨?_, ?_, ?_, ?_⟩
  · intro h
    cases hp : parseUTCDateTimeL v <;>
      simp [DateTime.DecodeICalValue, h, goParseInLocation_UTC, hp]
  · intro h h8
    cases hp : parseDateOnlyL v <;>
      simp [DateTime.DecodeICalValue, h, h8, goParseInLocation_Date, hp]
  · intro h h8
    cases hp : parseDateTimeL v <;>
      simp [DateTime.DecodeICalValue, h, h8, goParseInLocation_DT, hp]
  · intro f hf
    unfold parseDateOnlyL at hf
    split at hf
    · split at hf
      · split at hf
        · cases hf
          exact ⟨rfl, rfl, rfl⟩
        · exact Option.noConfusion hf
      · exact Option.noConfusion hf
    · exact Option.noConfusion hf

/-- C2 witness: the three layouts and the failure branch at concrete
inputs. -/
theorem claim_C2_witness :
    (DateTime.DecodeICalValue ⟨GoTime.zero⟩ ("20240101T000000Z".toList)
      = (⟨mkGoTime ⟨2024, 1, 1, 0, 0, 0⟩ Location.utc⟩, none)) ∧
    (DateTime.DecodeICalValue ⟨GoTime.zero⟩ ("20240101".toList)
      = (⟨mkGoTime ⟨2024, 1, 1, 0, 0, 0⟩ Location.utc⟩, none)) ∧
    (DateTime.DecodeICalValue ⟨GoTime.zero⟩ ("20240101T123045".toList)
      = (⟨mkGoTime ⟨2024, 1, 1, 12, 30, 45⟩ Location.utc⟩, none)) ∧
    (DateTime.DecodeICalValue ⟨GoTime.zero⟩ ("not-a-date".toList)
      = (⟨GoTime.zero⟩,
          some (NewError .DateTimeDecodeICalValue ("unable to parse datetime value")
            (.dt ⟨GoTime.zero⟩)
            (some (.goParseError DateTimeFormatString ("not-a-date".toList)))))) := by
  refine ⟨?_, ?_, ?_, ?_⟩
  · rw [(claim_C2 ⟨GoTime.zero⟩ ("20240101T000000Z".toList)).1 (by decide)]
    decide
  · rw [(claim_C2 ⟨GoTime.zero⟩ ("20240101".toList)).2.1 (by decide) (by decide)]
    decide
  · rw [(claim_C2 ⟨GoTime.zero⟩ ("20240101T123045".toList)).2.2.1 (by decide) (by decide)]
    decide
  · rw [(claim_C2 ⟨GoTime.zero⟩ ("not-a-date".toList)).2.2.1 (by decide) (by decide)]
    decide

/-- C5 (amended): on any decode failure the call surfaces a structured
error wrapping a parse error that references the literal input text, and
the receiver's stored time is overwritten with the zero time (not left at
any value derived from the bad input, but changed nonetheless). -/
theorem claim_C5 (d : DateTime) (v : ICalText) (e : GoErr)
    (h : (DateTime.DecodeICalValue d v).2 = some e) :
    ((DateTime.DecodeICalValue d v).1 = ⟨GoTime.zero⟩) ∧
    (∃ layout, (layout = UTCDateTimeFormatString ∨ layout = DateFormatString ∨
        layout = DateTimeFormatString) ∧
      e = NewError .DateTimeDecodeICalValue ("unable to parse datetime value")
            (.dt ⟨GoTime.zero⟩) (some (.goParseError layout v))) := by
  cases hp : goParseInLocation (if hasSuffixZ v then UTCDateTimeFormatString
      else if v.length = 8 then DateFormatString else DateTimeFormatString) v Location.utc with
  | some t =>
    simp [DateTime.DecodeICalValue, hp] at h
  | none =>
    simp only [DateTime.DecodeICalValue, hp, Option.some.injEq] at h
    refine ⟨by simp [DateTime.DecodeICalValue, hp], ?_⟩
    refine ⟨(if hasSuffixZ v then UTCDateTimeFormatString
      else if v.length = 8 then DateFormatString else DateTimeFormatString), ?_, h.symm⟩
    rcases Bool.eq_false_or_eq_true (hasSuffixZ v) with hz | hz
    · left; simp [hz]
    · by_cases h8 : v.length = 8
      · right; left; simp [hz, h8]
      · right; right; simp [hz, h8]

/-- C5 counterexample: a failed decode does change the receiver's stored
instant — it is overwritten with the zero time, so the claim that the
stored instant is not changed by the failed decode is false. -/
theorem claim_C5_counterexample :
    ((DateTime.DecodeICalValue ⟨⟨⟨2024, 1, 1, 0, 0, 0⟩, 0, Location.utc⟩⟩
        ("not-a-date".toList)).2.isSome = true) ∧
    ((DateTime.DecodeICalValue ⟨⟨⟨2024, 1, 1, 0, 0, 0⟩, 0, Location.utc⟩⟩
        ("not-a-date".toList)).1.t ≠ ⟨⟨2024, 1, 1, 0, 0, 0⟩, 0, Location.utc⟩) := by
  decide

/-- C5 witness: the amended behavior at the concrete failing input of the
spec. -/
theorem claim_C5_witness :
    ((DateTime.DecodeICalValue ⟨GoTime.zero⟩ ("not-a-date".toList)).1 = ⟨GoTime.zero⟩) ∧
    (∃ layout, (layout = UTCDateTimeFormatString ∨ layout = DateFormatString ∨
        layout = DateTimeFormatString) ∧
      NewError .DateTimeDecodeICalValue ("unable to parse datetime value")
          (.dt ⟨GoTime.zero⟩)
          (some (.goParseError DateTimeFormatString ("not-a-date".toList)))
        = NewError .DateTimeDecodeICalValue ("unable to parse datetime value")
            (.dt ⟨GoTime.zero⟩) (some (.goParseError layout ("not-a-date".toList)))) :=
  claim_C5 ⟨GoTime.zero⟩ ("not-a-date".toList)
    (NewError .DateTimeDecodeICalValue ("unable to parse datetime value")
      (.dt ⟨GoTime.zero⟩)
      (some (.goParseError DateTimeFormatString ("not-a-date".toList)))) (by decide)

/-- C8: EncodeICalValue totality.  For every DateTime the encode returns no
error, producing the local date-time rendering with Z appended exactly when
the zone is the distinguished UTC location (sixteen or fifteen characters
for an in-range four-digit reading), and the panic branch of String is
unreachable: the string conversion always succeeds with the encoded
value. -/
theorem claim_C8 (d : DateTime) :
    ((DateTime.EncodeICalValue d).2 = none)
  ∧ (DateTime.string d = some ((DateTime.EncodeICalValue d).1))
  ∧ (d.t.loc = Location.utc →
      (DateTime.EncodeICalValue d).1 = fmtFields d.t.fields ++ ['Z'])
  ∧ (d.t.loc ≠ Location.utc → (DateTime.EncodeICalValue d).1 = fmtFields d.t.fields)
  ∧ (d.t.fields.year ≤ 9999 → rangesOk d.t.fields →
      ((DateTime.EncodeICalValue d).1).length
        = if d.t.loc = Location.utc then 16 else 15) := by
  refine ⟨rfl, rfl, ?_, ?_, ?_⟩
  · intro h
    simp [DateTime.EncodeICalValue, goFormat_DT, h]
  · intro h
    simp [DateTime.EncodeICalValue, goFormat_DT, h]
  · intro hy hr
    by_cases h : d.t.loc = Location.utc <;>
      simp [DateTime.EncodeICalValue, goFormat_DT, h, length_fmtFields d.t.fields hy hr]

/-- C8 witness: totality and shape at concrete UTC and zoned values. -/
theorem claim_C8_witness :
    ((DateTime.EncodeICalValue vExUTC).1 = fmtFields vExUTC.t.fields ++ ['Z']) ∧
    ((DateTime.EncodeICalValue vEx).1 = fmtFields vEx.t.fields) ∧
    (((DateTime.EncodeICalValue vExUTC).1).length = 16) ∧
    (DateTime.string vExUTC = some ((DateTime.EncodeICalValue vExUTC).1)) := by
  refine ⟨(claim_C8 vExUTC).2.2.1 rfl, (claim_C8 vEx).2.2.2.1 (by decide), ?_,
    (claim_C8 vExUTC).2.1⟩
  have h := (claim_C8 vExUTC).2.2.2.2 (by decide) (by decide)
  rw [h]
  rfl

/-- C9: full-day encoding.  For every full-day value the encode returns no
error, producing the date-only rendering with Z appended exactly when the
zone is the distinguished UTC location; for an in-range four-digit reading
the output ends in Z if and only if the zone is UTC. -/
theorem claim_C9 (d : DateTime) :
    ((DateTimeFullDay.EncodeICalValue d).2 = none)
  ∧ (d.t.loc = Location.utc →
      (DateTimeFullDay.EncodeICalValue d).1 = fmtDateFields d.t.fields ++ ['Z'])
  ∧ (d.t.loc ≠ Location.utc →
      (DateTimeFullDay.EncodeICalValue d).1 = fmtDateFields d.t.fields)
  ∧ (d.t.fields.year ≤ 9999 → rangesOk d.t.fields →
      (hasSuffixZ ((DateTimeFullDay.EncodeICalValue d).1) = true
        ↔ d.t.loc = Location.utc)) := by
  refine ⟨rfl, ?_, ?_, ?_⟩
  · intro h
    simp [DateTimeFullDay.EncodeICalValue, goFormat_Date, h]
  · intro h
    simp [DateTimeFullDay.EncodeICalValue, goFormat_Date, h]
  · intro hy hr
    by_cases h : d.t.loc = Location.utc <;>
      simp [DateTimeFullDay.EncodeICalValue, goFormat_Date, h, hasSuffixZ_append_Z,
        hasSuffixZ_fmtDateFields d.t.fields hy hr]

/-- C9 witness: full-day shapes at concrete UTC and zoned values. -/
theorem claim_C9_witness :
    ((DateTimeFullDay.EncodeICalValue vExUTC).1 = fmtDateFields vExUTC.t.fields ++ ['Z']) ∧
    ((DateTimeFullDay.EncodeICalValue vEx).1 = fmtDateFields vEx.t.fields) ∧
    (hasSuffixZ ((DateTimeFullDay.EncodeICalValue vExUTC).1) = true) := by
  refine ⟨(claim_C9 vExUTC).2.1 rfl, (claim_C9 vEx).2.2.1 (by decide), ?_⟩
  exact ((claim_C9 vExUTC).2.2.2 (by decide) (by decide)).2 rfl

/-- C10: implicit UTC anchoring.  Every successful DecodeICalValue leaves
the stored time located in UTC, discarding any prior zone; and starting
from a UTC-located value, DecodeICalParams can only produce a non-UTC zone
when a timezone-identifier parameter is present. -/
theorem claim_C10 :
    (∀ (d0 : DateTime) (v : ICalText) (d2 : DateTime),
        DateTime.DecodeICalValue d0 v = (d2, none) → d2.t.loc = Location.utc)
  ∧ (∀ (tz : Tzdb) (d : DateTime) (ps : Params) (r : DateTime × Option GoErr),
        d.t.loc = Location.utc → DateTime.DecodeICalParams tz d ps = r →
        r.1.t.loc ≠ Location.utc → lookupParam ps TimeZoneIdPropertyName ≠ none) := by
  constructor
  · intro d0 v d2 h
    cases hp : goParseInLocation (if hasSuffixZ v then UTCDateTimeFormatString
        else if v.length = 8 then DateFormatString else DateTimeFormatString) v
        Location.utc with
    | none => simp [DateTime.DecodeICalValue, hp, Prod.mk.injEq] at h
    | some t =>
      simp only [DateTime.DecodeICalValue, hp, Prod.mk.injEq] at h
      rw [← h.1]
      exact goParseInLocation_loc _ v _ t hp
  · intro tz d ps r hloc hr hne hcontra
    have hid : DateTime.DecodeICalParams tz d ps = (d, none) := by
      simp [DateTime.DecodeICalParams, hcontra]
    rw [hid] at hr
    rw [← hr] at hne
    exact hne hloc

/-- C10 witness: UTC anchoring of a concrete successful decode, and the
presence of the timezone parameter behind a concrete zone change. -/
theorem claim_C10_witness :
    ((DateTime.DecodeICalValue ⟨GoTime.zero⟩ ("20240101T000000Z".toList)).1.t.loc
      = Location.utc) ∧
    (lookupParam [(TimeZoneIdPropertyName, "America/New_York")] TimeZoneIdPropertyName
      ≠ none) := by
  constructor
  · exact claim_C10.1 ⟨GoTime.zero⟩ ("20240101T000000Z".toList)
      ((DateTime.DecodeICalValue ⟨GoTime.zero⟩ ("20240101T000000Z".toList)).1) (by decide)
  · exact claim_C10.2 tzEx ⟨GoTime.zero⟩ [(TimeZoneIdPropertyName, "America/New_York")]
      (DateTime.DecodeICalParams tzEx ⟨GoTime.zero⟩
        [(TimeZoneIdPropertyName, "America/New_York")]) rfl rfl (by decide)

/-- When every element accepts the parameter block, the parameter-decoding
loop updates all elements in order and reports no error. -/
theorem DecodeICalParamsAux_ok (tz : Tzdb) (ps : Params) :
    ∀ (l : List DateTime), (∀ d ∈ l, (DateTime.DecodeICalParams tz d ps).2 = none) →
    ∀ (acc : DateTimes) (i : Nat),
    DateTimes.DecodeICalParamsAux tz ps acc i l
      = (acc ++ l.map (fun d => (DateTime.DecodeICalParams tz d ps).1), none) := by
  intro l
  induction l with
  | nil =>
    intro _ acc i
    simp [DateTimes.DecodeICalParamsAux]
  | cons d rest ih =>
    intro hall acc i
    have hd := hall d (by simp)
    cases hc : DateTime.DecodeICalParams tz d ps with
    | mk d2 ex =>
      have he : ex = none := by rw [hc] at hd; exact hd
      subst he
      simp only [DateTimes.DecodeICalParamsAux, hc]
      rw [ih (fun x hx => hall x (by simp [hx])) (acc ++ [d2]) (i + 1)]
      simp [hc, List.append_assoc]

/-- When the elements before a failing element all accept the parameter
block and that element rejects it, the parameter-decoding loop stops there:
the updated prefix is followed by the untouched failing element and suffix,
and the surfaced error names the failing index, snapshots the current list,
and wraps the element's error. -/
theorem DecodeICalParamsAux_fail (tz : Tzdb) (ps : Params) (dbad : DateTime)
    (post : List DateTime) (e0 : GoErr)
    (hbad : (DateTime.DecodeICalParams tz dbad ps).2 = some e0) :
    ∀ (pre : List DateTime), (∀ d ∈ pre, (DateTime.DecodeICalParams tz d ps).2 = none) →
    ∀ (acc : DateTimes) (i : Nat),
    DateTimes.DecodeICalParamsAux tz ps acc i (pre ++ dbad :: post)
      = (acc ++ pre.map (fun d => (DateTime.DecodeICalParams tz d ps).1) ++ dbad :: post,
         some (NewError .DateTimesDecodeICalValue
           ("unable to decode datetime params for index " ++ Nat.repr (i + pre.length))
           (.dts (acc ++ pre.map (fun d => (DateTime.DecodeICalParams tz d ps).1)
             ++ dbad :: post))
           (some e0))) := by
  intro pre
  induction pre with
  | nil =>
    intro _ acc i
    cases hc : DateTime.DecodeICalParams tz dbad ps with
    | mk d2 ex =>
      have he : ex = some e0 := by rw [hc] at hbad; exact hbad
      subst he
      simp [DateTimes.DecodeICalParamsAux, hc]
  | cons d pre2 ih =>
    intro hall acc i
    have hd := hall d (by simp)
    cases hc : DateTime.DecodeICalParams tz d ps with
    | mk d2 ex =>
      have he : ex = none := by rw [hc] at hd; exact hd
      subst he
      simp only [List.cons_append, DateTimes.DecodeICalParamsAux, hc, List.append_eq]
      rw [ih (fun x hx => hall x (by simp [hx])) (acc ++ [d2]) (i + 1)]
      have harith : i + 1 + pre2.length = i + (pre2.length + 1) := by omega
      simp [hc, harith, List.append_assoc]

/-- C6: list DecodeICalParams without rollback.  The same parameter block
is applied to every element in order; when all accept it the whole list is
updated, and on the first rejecting element the loop stops: earlier
elements retain their updated zone, the failing element and the later
elements are unmodified, and the error names the failing index, snapshots
the current list, and wraps the element's error. -/
theorem claim_C6 (tz : Tzdb) (ds : DateTimes) (ps : Params) :
    ((∀ d ∈ ds, (DateTime.DecodeICalParams tz d ps).2 = none) →
      DateTimes.DecodeICalParams tz ds ps
        = (ds.map (fun d => (DateTime.DecodeICalParams tz d ps).1), none))
  ∧ (∀ (pre : List DateTime) (dbad : DateTime) (post : List DateTime) (e0 : GoErr),
      ds = pre ++ dbad :: post →
      (∀ d ∈ pre, (DateTime.DecodeICalParams tz d ps).2 = none) →
      (DateTime.DecodeICalParams tz dbad ps).2 = some e0 →
      DateTimes.DecodeICalParams tz ds ps
        = (pre.map (fun d => (DateTime.DecodeICalParams tz d ps).1) ++ dbad :: post,
           some (NewError .DateTimesDecodeICalValue
             ("unable to decode datetime params for index " ++ Nat.repr pre.length)
             (.dts (pre.map (fun d => (DateTime.DecodeICalParams tz d ps).1)
               ++ dbad :: post))
             (some e0)))) := by
  constructor
  · intro hall
    unfold DateTimes.DecodeICalParams
    rw [DecodeICalParamsAux_ok tz ps ds hall [] 0]
    simp
  · intro pre dbad post e0 hds hall hbad
    subst hds
    unfold DateTimes.DecodeICalParams
    rw [DecodeICalParamsAux_fail tz ps dbad post e0 hbad pre hall [] 0]
    simp

/-- Element that accepts the witness parameter block. -/
def dGoodC6 : DateTime := ⟨mkGoTime ⟨2024, 1, 1, 0, 0, 0⟩ Location.utc⟩

/-- Element that rejects the witness parameter block: its five-digit year
renders to a sixteen-character text the local date-time layout cannot
re-parse. -/
def dBadC6 : DateTime := ⟨mkGoTime ⟨10000, 1, 1, 0, 0, 0⟩ Location.utc⟩

/-- The element-level error surfaced for the rejecting element. -/
def eBadC6 : GoErr :=
  NewError .DateTimeDecodeICalValue ("unable to parse datetime value") (.dt dBadC6)
    (some (.goParseError DateTimeFormatString (fmtFields ⟨10000, 1, 1, 0, 0, 0⟩)))

/-- C6 witness: full update of a one-element list, and the stop-without-
rollback behavior at a concrete two-element list whose second element
rejects the block. -/
theorem claim_C6_witness :
    (DateTimes.DecodeICalParams tzEx [dGoodC6]
        [(TimeZoneIdPropertyName, "America/New_York")]
      = ([⟨mkGoTime ⟨2024, 1, 1, 0, 0, 0⟩ (Location.named "America/New_York" (-18000))⟩],
         none)) ∧
    (DateTimes.DecodeICalParams tzEx [dGoodC6, dBadC6]
        [(TimeZoneIdPropertyName, "America/New_York")]
      = ([⟨mkGoTime ⟨2024, 1, 1, 0, 0, 0⟩ (Location.named "America/New_York" (-18000))⟩,
          dBadC6],
         some (NewError .DateTimesDecodeICalValue
           ("unable to decode datetime params for index 1")
           (.dts [⟨mkGoTime ⟨2024, 1, 1, 0, 0, 0⟩
               (Location.named "America/New_York" (-18000))⟩, dBadC6])
           (some eBadC6)))) := by
  constructor
  · rw [(claim_C6 tzEx [dGoodC6] [(TimeZoneIdPropertyName, "America/New_York")]).1
      (by decide)]
    decide
  · rw [(claim_C6 tzEx [dGoodC6, dBadC6] [(TimeZoneIdPropertyName, "America/New_York")]).2
      [dGoodC6] dBadC6 [] eBadC6 rfl (by decide) (by decide)]
    decide

/-- When every token decodes, the token-decoding loop appends all decoded
elements in order and reports no error. -/
theorem DecodeICalValueAux_ok :
    ∀ (toks : List ICalText),
    (∀ tok ∈ toks, (DateTime.DecodeICalValue ⟨GoTime.zero⟩ tok).2 = none) →
    ∀ (acc : DateTimes) (i : Nat),
    DateTimes.DecodeICalValueAux acc i toks
      = (acc ++ toks.map (fun tok => (DateTime.DecodeICalValue ⟨GoTime.zero⟩ tok).1),
         none) := by
  intro toks
  induction toks with
  | nil =>
    intro _ acc i
    simp [DateTimes.DecodeICalValueAux]
  | cons tok rest ih =>
    intro hall acc i
    have ht := hall tok (by simp)
    cases hc : DateTime.DecodeICalValue ⟨GoTime.zero⟩ tok with
    | mk d2 ex =>
      have he : ex = none := by rw [hc] at ht; exact ht
      subst he
      simp only [DateTimes.DecodeICalValueAux, hc]
      rw [ih (fun x hx => hall x (by simp [hx])) (acc ++ [d2]) (i + 1)]
      simp [hc, List.append_assoc]

/-- When the tokens before a failing token all decode and that token fails,
the token-decoding loop stops there: the elements decoded from the prior
tokens remain appended, and the surfaced error names the failing index,
snapshots the current list, and wraps the token's error. -/
theorem DecodeICalValueAux_fail (tokbad : ICalText) (post : List ICalText) (e0 : GoErr)
    (hbad : (DateTime.DecodeICalValue ⟨GoTime.zero⟩ tokbad).2 = some e0) :
    ∀ (pre : List ICalText),
    (∀ tok ∈ pre, (DateTime.DecodeICalValue ⟨GoTime.zero⟩ tok).2 = none) →
    ∀ (acc : DateTimes) (i : Nat),
    DateTimes.DecodeICalValueAux acc i (pre ++ tokbad :: post)
      = (acc ++ pre.map (fun tok => (DateTime.DecodeICalValue ⟨GoTime.zero⟩ tok).1),
         some (NewError .DateTimesDecodeICalValue
           ("unable to decode datetime at index " ++ Nat.repr (i + pre.length))
           (.dts (acc ++ pre.map (fun tok => (DateTime.DecodeICalValue ⟨GoTime.zero⟩ tok).1)))
           (some e0))) := by
  intro pre
  induction pre with
  | nil =>
    intro _ acc i
    cases hc : DateTime.DecodeICalValue ⟨GoTime.zero⟩ tokbad with
    | mk d2 ex =>
      have he : ex = some e0 := by rw [hc] at hbad; exact hbad
      subst he
      simp [DateTimes.DecodeICalValueAux, hc]
  | cons tok pre2 ih =>
    intro hall acc i
    have ht := hall tok (by simp)
    cases hc : DateTime.DecodeICalValue ⟨GoTime.zero⟩ tok with
    | mk d2 ex =>
      have he : ex = none := by rw [hc] at ht; exact ht
      subst he
      simp only [List.cons_append, DateTimes.DecodeICalValueAux, hc, List.append_eq]
      rw [ih (fun x hx => hall x (by simp [hx])) (acc ++ [d2]) (i + 1)]
      have harith : i + 1 + pre2.length = i + (pre2.length + 1) := by omega
      simp [hc, harith, List.append_assoc]

/-- C4: partial list decode.  The input is first split by the CSV codec;
each token is then decoded in order, appending each successfully decoded
element to the existing list; on the first failing token the loop stops,
every element appended from the prior tokens remains in the list, and the
error names the failing index and wraps the token's error — the decode is
not atomic at the list level. -/
theorem claim_C4 (ds : DateTimes) (v : ICalText) (toks : List ICalText)
    (hcsv : csvDecodeICalValue v = .ok toks) :
    ((∀ tok ∈ toks, (DateTime.DecodeICalValue ⟨GoTime.zero⟩ tok).2 = none) →
      DateTimes.DecodeICalValue ds v
        = (ds ++ toks.map (fun tok => (DateTime.DecodeICalValue ⟨GoTime.zero⟩ tok).1),
           none))
  ∧ (∀ (pre : List ICalText) (tokbad : ICalText) (post : List ICalText) (e0 : GoErr),
      toks = pre ++ tokbad :: post →
      (∀ tok ∈ pre, (DateTime.DecodeICalValue ⟨GoTime.zero⟩ tok).2 = none) →
      (DateTime.DecodeICalValue ⟨GoTime.zero⟩ tokbad).2 = some e0 →
      DateTimes.DecodeICalValue ds v
        = (ds ++ pre.map (fun tok => (DateTime.DecodeICalValue ⟨GoTime.zero⟩ tok).1),
           some (NewError .DateTimesDecodeICalValue
             ("unable to decode datetime at index " ++ Nat.repr pre.length)
             (.dts (ds ++ pre.map (fun tok =>
               (DateTime.DecodeICalValue ⟨GoTime.zero⟩ tok).1)))
             (some e0)))) := by
  constructor
  · intro hall
    unfold DateTimes.DecodeICalValue
    simp only [hcsv]
    rw [DecodeICalValueAux_ok toks hall ds 0]
  · intro pre tokbad post e0 htoks hall hbad
    subst htoks
    unfold DateTimes.DecodeICalValue
    simp only [hcsv]
    rw [DecodeICalValueAux_fail tokbad post e0 hbad pre hall ds 0]
    simp

/-- C4 witness: the spec's example — the list decode of a good token
followed by garbage fails naming index one, while the element decoded from
the first token remains present and equal to the UTC instant for the start
of 2024-01-01. -/
theorem claim_C4_witness :
    DateTimes.DecodeICalValue [] ("20240101T000000Z,garbage".toList)
      = ([⟨mkGoTime ⟨2024, 1, 1, 0, 0, 0⟩ Location.utc⟩],
         some (NewError .DateTimesDecodeICalValue
           ("unable to decode datetime at index 1")
           (.dts [⟨mkGoTime ⟨2024, 1, 1, 0, 0, 0⟩ Location.utc⟩])
           (some (NewError .DateTimeDecodeICalValue ("unable to parse datetime value")
             (.dt ⟨GoTime.zero⟩)
             (some (.goParseError DateTimeFormatString ("garbage".toList))))))) := by
  rw [(claim_C4 [] ("20240101T000000Z,garbage".toList)
      [("20240101T000000Z".toList), ("garbage".toList)] rfl).2
      [("20240101T000000Z".toList)] ("garbage".toList) []
      (NewError .DateTimeDecodeICalValue ("unable to parse datetime value")
        (.dt ⟨GoTime.zero⟩) (some (.goParseError DateTimeFormatString ("garbage".toList))))
      rfl (by decide) (by decide)]
  decide

/-- C7: error-metadata evaluation at a failing input.  The error surfaced
by DateTime.DecodeICalParams for an unresolvable timezone carries the
DecodeICalValue method value as its operation identity — not the failing
operation DecodeICalParams (for which no operation identity exists in the
code's error constructions at all). -/
theorem claim_C7 :
    (DateTime.DecodeICalParams ⟨0, fun _ => none⟩ ⟨GoTime.zero⟩
        [(TimeZoneIdPropertyName, "Not/A/Zone")]).2
      = some (NewError .DateTimeDecodeICalValue ("unable to parse timezone")
          (.dt ⟨GoTime.zero⟩) (some (.tzLoadError "Not/A/Zone"))) := by
  decide
